import Mathlib

/-!
Verification of the call-triggered audio orchestration core of the
`aicallrouting` repository.

The development shallowly embeds the relevant parts of the TypeScript
sources:

* `src/utils/websocketManager.ts` — the Transport Session: the base64
  audio transform (`arrayBufferToBase64` / `base64ToArrayBuffer`) and the
  reconnect machinery of `connect`'s `onclose` handler and `disconnect`.
* `src/unnamed/part_000` — the streaming-mode orchestrator: the
  `onCallStateChanged` listener with its `answeringRef` /
  `isProcessingRef` guard flags, the polling watchdog, and
  `startAIProcessing` / `startAIWithAudioMode`.
* `src/App.tsx` — the batched-mode orchestrator: `processLoop` (the
  chunk-interval clock) and `processAudioChunk` (STT dispatch).
* `src/unnamed/part_005` — the n8n Turn Processor (`sendToN8n`, the
  dual-endpoint interim/main strategy, `playAudioFromBlob`) and
  `TelephonyManager` (`hangupCall`, `shutdown`).

Machine integers are modelled as `Nat` (byte values carry an explicit
`< 256` bound where it matters).  Event-driven mutable state is modelled
by explicit state records and step functions over event lists; the
JavaScript host is single-threaded and callbacks interleave only at
`await` points, which the step functions reflect.
-/

namespace WebSocketManager

/-! ## Base64 transform (`src/utils/websocketManager.ts`, lines 296-317)

`arrayBufferToBase64` builds a latin-1 string from the bytes of the
buffer and applies `btoa`; `base64ToArrayBuffer` applies `atob` and reads
the char codes back.  We model a byte buffer as `List Nat` (each element
`< 256`, as guaranteed by `Uint8Array`) and a JavaScript string as
`List Char`.  `btoa` is standard base64 of the latin-1 code units;
`atob` is its inverse on well-formed base64 input. -/

/-- The base64 alphabet used by `btoa`/`atob`. -/
def b64Alphabet : List Char :=
  "ABCDEFGHIJKLMNOPQRSTUVWXYZabcdefghijklmnopqrstuvwxyz0123456789+/".toList

/-- Map a sextet value (0–63) to its base64 digit. -/
def sextetToChar (n : Nat) : Char := b64Alphabet.getD n '='

/-- Map a base64 digit back to its sextet value (64 for a non-digit). -/
def charToSextet (c : Char) : Nat := b64Alphabet.indexOf c

/-- `btoa` on the latin-1 string whose code units are `bytes`: groups of
three bytes become four base64 digits, a trailing group of one or two
bytes is padded with `'='`. -/
def encodeGroups : List Nat → List Char
  | [] => []
  | [x] =>
      [sextetToChar (x / 4), sextetToChar (x % 4 * 16), '=', '=']
  | [x, y] =>
      [sextetToChar (x / 4), sextetToChar (x % 4 * 16 + y / 16),
       sextetToChar (y % 16 * 4), '=']
  | x :: y :: z :: rest =>
      sextetToChar (x / 4) :: sextetToChar (x % 4 * 16 + y / 16) ::
      sextetToChar (y % 16 * 4 + z / 64) :: sextetToChar (z % 64) ::
      encodeGroups rest

/-- `atob` on well-formed base64: each group of four digits yields three
bytes, with `'='` padding cutting the final group to one or two bytes. -/
def decodeGroups : List Char → List Nat
  | a :: b :: c :: d :: rest =>
      if c = '=' then
        [charToSextet a * 4 + charToSextet b / 16]
      else if d = '=' then
        [charToSextet a * 4 + charToSextet b / 16,
         charToSextet b % 16 * 16 + charToSextet c / 4]
      else
        (charToSextet a * 4 + charToSextet b / 16) ::
        (charToSextet b % 16 * 16 + charToSextet c / 4) ::
        (charToSextet c % 4 * 64 + charToSextet d) ::
        decodeGroups rest
  | _ => []

/-- `arrayBufferToBase64` (lines 296-305): bytes to latin-1 string, then
`btoa`. -/
def arrayBufferToBase64 (buffer : List Nat) : List Char :=
  encodeGroups buffer

/-- `base64ToArrayBuffer` (lines 307-317): `atob`, then char codes back
into a `Uint8Array`. -/
def base64ToArrayBuffer (base64 : List Char) : List Nat :=
  decodeGroups base64

theorem charToSextet_sextetToChar : ∀ n, n < 64 →
    charToSextet (sextetToChar n) = n := by decide

theorem sextetToChar_ne_pad : ∀ n, n < 64 → sextetToChar n ≠ '=' := by decide

theorem decodeGroups_encodeGroups (bytes : List Nat)
    (h : ∀ x ∈ bytes, x < 256) :
    decodeGroups (encodeGroups bytes) = bytes := by
  induction bytes using encodeGroups.induct with
  | case1 => rfl
  | case2 x =>
      have hx : x < 256 := h x (by simp)
      simp only [encodeGroups, decodeGroups, if_true]
      rw [charToSextet_sextetToChar _ (by omega),
          charToSextet_sextetToChar _ (by omega)]
      simp only [List.cons.injEq, and_true]
      omega
  | case3 x y =>
      have hx : x < 256 := h x (by simp)
      have hy : y < 256 := h y (by simp)
      simp only [encodeGroups, decodeGroups]
      rw [if_neg (sextetToChar_ne_pad _ (by omega))]
      simp only [if_true]
      rw [charToSextet_sextetToChar _ (by omega),
          charToSextet_sextetToChar _ (by omega),
          charToSextet_sextetToChar _ (by omega)]
      simp only [List.cons.injEq, and_true]
      omega
  | case4 x y z rest ih =>
      have hx : x < 256 := h x (by simp)
      have hy : y < 256 := h y (by simp)
      have hz : z < 256 := h z (by simp)
      have hrest : ∀ w ∈ rest, w < 256 := by
        intro w hw
        exact h w (by simp [hw])
      simp only [encodeGroups, decodeGroups]
      rw [if_neg (sextetToChar_ne_pad _ (by omega)),
          if_neg (sextetToChar_ne_pad _ (by omega))]
      rw [charToSextet_sextetToChar _ (by omega),
          charToSextet_sextetToChar _ (by omega),
          charToSextet_sextetToChar _ (by omega),
          charToSextet_sextetToChar _ (by omega)]
      simp only [List.cons.injEq]
      refine ⟨by omega, by omega, by omega, ih hrest⟩

/-! ## Reconnect machinery (`src/utils/websocketManager.ts`)

`connect` installs an `onclose` handler (lines 79-92): it clears
`isConnected`, invokes the disconnected callback, and — if
`reconnectAttempts < maxReconnectAttempts` — increments the counter and
schedules one further `connect` call via `setTimeout` with a fixed
delay (logged with the incremented counter).  `onopen` (lines 57-67)
sets `isConnected` and resets the counter to 0.  `disconnect` (lines
245-269) sets `reconnectAttempts` to the maximum *before* closing the
socket (but only when a socket exists), then nulls the socket and
clears the connection state.  The `setTimeout` handle is never stored
and `disconnect` calls no `clearTimeout`, so a retry scheduled by a
close that preceded the `disconnect` call still fires afterwards and
unconditionally invokes `this.connect(sessionId)`. -/

/-- `WebSocketManager.maxReconnectAttempts` (line 29). -/
def maxReconnectAttempts : Nat := 5

/-- The mutable fields of `WebSocketManager` relevant to reconnection,
the host's timer queue, and observation counters for the effects the
handlers perform: `pendingRetries` is the number of `setTimeout` retry
callbacks scheduled by `onclose` that have not fired yet (none is ever
cancelled — no handle is stored), `scheduledReconnects` counts the
retries scheduled by `onclose`, `connectCalls` counts the
`this.connect(sessionId)` invocations made by fired retry timers,
`retryTags` records the counter value each retry is logged with, and
`disconnectedSignals` counts invocations of the disconnected callback. -/
structure WSState where
  wsPresent : Bool
  isConnected : Bool
  reconnectAttempts : Nat
  pendingRetries : Nat
  scheduledReconnects : Nat
  connectCalls : Nat
  retryTags : List Nat
  disconnectedSignals : Nat
  deriving Repr, DecidableEq

/-- The manager as constructed (lines 25-30), with an empty timer queue. -/
def initialWS : WSState :=
  { wsPresent := false, isConnected := false, reconnectAttempts := 0,
    pendingRetries := 0, scheduledReconnects := 0, connectCalls := 0,
    retryTags := [], disconnectedSignals := 0 }

/-- Events delivered to the manager: a `connect` call creating a socket,
the socket's `onopen`, the socket's `onclose` (a connection failure or
drop), a manual `disconnect` call, and a previously scheduled
`setTimeout` retry callback firing (lines 87-90). -/
inductive WSEvent
  | connectCall
  | openFires
  | closeFires
  | disconnectCall
  | retryTimerFires
  deriving Repr, DecidableEq

/-- One event handled by the manager, as the source handlers write the
fields.  A fired retry timer (lines 87-90) unconditionally calls
`this.connect(sessionId)`, which creates a fresh socket; `disconnect`
(lines 245-269) does not touch the timer queue. -/
def wsStep (s : WSState) : WSEvent → WSState
  | .connectCall => { s with wsPresent := true }
  | .openFires => { s with isConnected := true, reconnectAttempts := 0 }
  | .closeFires =>
      if s.reconnectAttempts < maxReconnectAttempts then
        { s with isConnected := false,
                 disconnectedSignals := s.disconnectedSignals + 1,
                 reconnectAttempts := s.reconnectAttempts + 1,
                 pendingRetries := s.pendingRetries + 1,
                 scheduledReconnects := s.scheduledReconnects + 1,
                 retryTags := s.retryTags ++ [s.reconnectAttempts + 1] }
      else
        { s with isConnected := false,
                 disconnectedSignals := s.disconnectedSignals + 1 }
  | .disconnectCall =>
      if s.wsPresent then
        { s with reconnectAttempts := maxReconnectAttempts,
                 wsPresent := false, isConnected := false }
      else { s with isConnected := false }
  | .retryTimerFires =>
      if 0 < s.pendingRetries then
        { s with pendingRetries := s.pendingRetries - 1,
                 connectCalls := s.connectCalls + 1,
                 wsPresent := true }
      else s

/-- Fold a list of events through the manager. -/
def wsRun (s : WSState) (evs : List WSEvent) : WSState :=
  evs.foldl wsStep s

theorem wsStep_close_of_budget_exhausted (s : WSState)
    (h : maxReconnectAttempts ≤ s.reconnectAttempts) :
    wsStep s .closeFires =
      { s with isConnected := false,
               disconnectedSignals := s.disconnectedSignals + 1 } := by
  simp only [wsStep,
    if_neg (by omega : ¬ s.reconnectAttempts < maxReconnectAttempts)]

theorem wsRun_closes_of_budget_exhausted : ∀ (n : Nat) (s : WSState),
    maxReconnectAttempts ≤ s.reconnectAttempts →
    (wsRun s (List.replicate n .closeFires)).scheduledReconnects =
      s.scheduledReconnects := by
  intro n
  induction n with
  | zero => intro s _; rfl
  | succ n ih =>
      intro s h
      rw [List.replicate_succ]
      show (wsRun (wsStep s .closeFires)
        (List.replicate n .closeFires)).scheduledReconnects = _
      rw [wsStep_close_of_budget_exhausted s h]
      exact ih _ h

theorem wsRun_append (s : WSState) (a b : List WSEvent) :
    wsRun s (a ++ b) = wsRun (wsRun s a) b :=
  List.foldl_append wsStep s a b

end WebSocketManager

/-- C5 counterexample: starting from a fresh manager
(`reconnectAttempts = 0`) whose initial connect attempt and every retry
fail, the fifth consecutive connection failure still schedules a further
connect attempt (the scheduled-reconnect count rises from 4 to 5), so
after exactly `maxReconnectAttempts = 5` consecutive connection failures
the session has initiated another connect attempt rather than none. -/
theorem c5_counterexample :
    (WebSocketManager.wsRun WebSocketManager.initialWS
        (WebSocketManager.WSEvent.connectCall ::
          List.replicate 5 WebSocketManager.WSEvent.closeFires)).scheduledReconnects
      =
    (WebSocketManager.wsRun WebSocketManager.initialWS
        (WebSocketManager.WSEvent.connectCall ::
          List.replicate 4 WebSocketManager.WSEvent.closeFires)).scheduledReconnects
      + 1 := by
  decide

/-- C5 (amended): every connection failure while the retry budget is not
exhausted schedules exactly one reconnect attempt, tagged with the
incremented counter; once the counter has reached the maximum a further
failure schedules nothing; the disconnected callback is surfaced to the
orchestrator on every failure (including the final one); and from a
fresh manager the consecutive-failure run performs exactly the five
tagged retries 1..5 — the budget is exhausted after the sixth
consecutive failure (the initial attempt plus the five retries), after
which no further connect attempt is ever initiated. -/
theorem c5_reconnect_budget :
    (∀ s : WebSocketManager.WSState,
        WebSocketManager.maxReconnectAttempts ≤ s.reconnectAttempts →
        (WebSocketManager.wsStep s .closeFires).scheduledReconnects =
          s.scheduledReconnects) ∧
    (∀ s : WebSocketManager.WSState,
        s.reconnectAttempts < WebSocketManager.maxReconnectAttempts →
        (WebSocketManager.wsStep s .closeFires).scheduledReconnects =
            s.scheduledReconnects + 1 ∧
        (WebSocketManager.wsStep s .closeFires).retryTags =
            s.retryTags ++ [s.reconnectAttempts + 1]) ∧
    (∀ s : WebSocketManager.WSState,
        (WebSocketManager.wsStep s .closeFires).disconnectedSignals =
          s.disconnectedSignals + 1) ∧
    (WebSocketManager.wsRun WebSocketManager.initialWS
        (WebSocketManager.WSEvent.connectCall ::
          List.replicate 6 WebSocketManager.WSEvent.closeFires)).retryTags
      = [1, 2, 3, 4, 5] ∧
    (∀ n : Nat,
      (WebSocketManager.wsRun WebSocketManager.initialWS
          (WebSocketManager.WSEvent.connectCall ::
            List.replicate (6 + n) WebSocketManager.WSEvent.closeFires)).scheduledReconnects
        = 5) := by
  refine ⟨?_, ?_, ?_, by decide, ?_⟩
  · intro s h
    rw [WebSocketManager.wsStep_close_of_budget_exhausted s h]
  · intro s h
    simp [WebSocketManager.wsStep, h]
  · intro s
    by_cases h : s.reconnectAttempts < WebSocketManager.maxReconnectAttempts <;>
      simp only [WebSocketManager.wsStep, h, if_true, if_false]
  · intro n
    have hsplit :
        (WebSocketManager.WSEvent.connectCall ::
            List.replicate (6 + n) WebSocketManager.WSEvent.closeFires)
          = (WebSocketManager.WSEvent.connectCall ::
              List.replicate 6 WebSocketManager.WSEvent.closeFires) ++
            List.replicate n WebSocketManager.WSEvent.closeFires := by
      rw [List.replicate_add]
      rfl
    rw [hsplit, WebSocketManager.wsRun_append]
    rw [WebSocketManager.wsRun_closes_of_budget_exhausted n _ (by decide)]
    decide

/-- C6 counterexample: a connection is established and then drops, so
`onclose` schedules one retry via `setTimeout`; `disconnect()` is called
inside the backoff window.  `disconnect` stores no timer handle and
calls no `clearTimeout`, so after it returns the pending retry still
fires and invokes `this.connect(sessionId)` — a reconnect attempt is
initiated after the manual disconnect (the connect-call count rises from
0 to 1 and a fresh socket exists after teardown), refuting "no
reconnection attempt is ever initiated" and "teardown never races with a
reconnect attempt". -/
theorem c6_counterexample :
    (WebSocketManager.wsRun WebSocketManager.initialWS
        [WebSocketManager.WSEvent.connectCall,
         WebSocketManager.WSEvent.closeFires,
         WebSocketManager.WSEvent.disconnectCall]).connectCalls = 0 ∧
    (WebSocketManager.wsRun WebSocketManager.initialWS
        [WebSocketManager.WSEvent.connectCall,
         WebSocketManager.WSEvent.closeFires,
         WebSocketManager.WSEvent.disconnectCall]).wsPresent = false ∧
    (WebSocketManager.wsRun WebSocketManager.initialWS
        [WebSocketManager.WSEvent.connectCall,
         WebSocketManager.WSEvent.closeFires,
         WebSocketManager.WSEvent.disconnectCall,
         WebSocketManager.WSEvent.retryTimerFires]).connectCalls = 1 ∧
    (WebSocketManager.wsRun WebSocketManager.initialWS
        [WebSocketManager.WSEvent.connectCall,
         WebSocketManager.WSEvent.closeFires,
         WebSocketManager.WSEvent.disconnectCall,
         WebSocketManager.WSEvent.retryTimerFires]).wsPresent = true := by
  decide

/-- C6 (amended): a manual `disconnect()` on a manager that holds a
socket sets the retry counter to the maximum before closing, so a close
event delivered after `disconnect()` never schedules a new reconnect,
however many arrive; but `disconnect` does not cancel the `setTimeout`
retries already scheduled by earlier closes (no timer handle is stored),
so every pending retry survives the teardown, and when one fires it
still initiates a `connect` call and creates a fresh socket — teardown
can race with such a pending reconnect attempt. -/
theorem c6_disconnect_pending_retry (s : WebSocketManager.WSState)
    (n : Nat) (h : s.wsPresent = true) :
    (WebSocketManager.wsStep s .disconnectCall).reconnectAttempts =
        WebSocketManager.maxReconnectAttempts ∧
    (WebSocketManager.wsRun (WebSocketManager.wsStep s .disconnectCall)
        (List.replicate n .closeFires)).scheduledReconnects =
      (WebSocketManager.wsStep s .disconnectCall).scheduledReconnects ∧
    (WebSocketManager.wsStep s .disconnectCall).pendingRetries =
        s.pendingRetries ∧
    (0 < s.pendingRetries →
      (WebSocketManager.wsStep (WebSocketManager.wsStep s .disconnectCall)
          .retryTimerFires).connectCalls = s.connectCalls + 1 ∧
      (WebSocketManager.wsStep (WebSocketManager.wsStep s .disconnectCall)
          .retryTimerFires).wsPresent = true) := by
  have hd : WebSocketManager.wsStep s .disconnectCall =
      { s with reconnectAttempts := WebSocketManager.maxReconnectAttempts,
               wsPresent := false, isConnected := false } := by
    simp only [WebSocketManager.wsStep, h, if_true]
  refine ⟨by rw [hd],
    WebSocketManager.wsRun_closes_of_budget_exhausted n _ (by rw [hd]),
    by rw [hd], ?_⟩
  intro hp
  rw [hd]
  simp [WebSocketManager.wsStep, hp]

/-- The manager after a successful `connect` call whose socket then
dropped once (scheduling one retry): the concrete input of the C6
witness. -/
def wsConnectedDemo : WebSocketManager.WSState :=
  WebSocketManager.wsRun WebSocketManager.initialWS
    [WebSocketManager.WSEvent.connectCall, WebSocketManager.WSEvent.closeFires]

/-- Witness for C6: the manager with one pending retry is manually
disconnected, its socket delivers three further close events, and the
pending retry timer then fires. -/
theorem c6_disconnect_pending_retry_witness :
    wsConnectedDemo.wsPresent = true ∧
    ((WebSocketManager.wsStep wsConnectedDemo .disconnectCall).reconnectAttempts =
        WebSocketManager.maxReconnectAttempts ∧
      (WebSocketManager.wsRun
          (WebSocketManager.wsStep wsConnectedDemo .disconnectCall)
          (List.replicate 3 .closeFires)).scheduledReconnects =
        (WebSocketManager.wsStep wsConnectedDemo .disconnectCall).scheduledReconnects ∧
      (WebSocketManager.wsStep wsConnectedDemo .disconnectCall).pendingRetries =
        wsConnectedDemo.pendingRetries ∧
      (0 < wsConnectedDemo.pendingRetries →
        (WebSocketManager.wsStep
            (WebSocketManager.wsStep wsConnectedDemo .disconnectCall)
            .retryTimerFires).connectCalls = wsConnectedDemo.connectCalls + 1 ∧
        (WebSocketManager.wsStep
            (WebSocketManager.wsStep wsConnectedDemo .disconnectCall)
            .retryTimerFires).wsPresent = true)) :=
  ⟨rfl, c6_disconnect_pending_retry wsConnectedDemo 3 rfl⟩

/-- C4: for every byte buffer `b`, the transport's base64 decode of its
base64 encode returns exactly `b`, element for element and length for
length (`base64ToArrayBuffer (arrayBufferToBase64 b) = b`). -/
theorem c4_base64_roundtrip (b : List Nat) (h : ∀ x ∈ b, x < 256) :
    WebSocketManager.base64ToArrayBuffer
      (WebSocketManager.arrayBufferToBase64 b) = b :=
  WebSocketManager.decodeGroups_encodeGroups b h

/-- Witness for C4 at the concrete buffer `[0, 77, 255, 128, 5]`. -/
theorem c4_base64_roundtrip_witness :
    (∀ x ∈ [0, 77, 255, 128, 5], x < 256) ∧
    WebSocketManager.base64ToArrayBuffer
      (WebSocketManager.arrayBufferToBase64 [0, 77, 255, 128, 5]) =
      [0, 77, 255, 128, 5] :=
  ⟨by decide, c4_base64_roundtrip [0, 77, 255, 128, 5] (by decide)⟩

/-! ## Observable side effects

A single action alphabet shared by the orchestrator models: each step
function records the device/transport primitives it invokes, so that
absence of a primitive (notably `hangup`) on a path is a statement about
the model rather than about a stub. -/

/-- Device and transport primitives invoked by the orchestrators. -/
inductive DeviceAction
  | wsConnect
  | wsDisconnect
  | startPCMStream
  | stopPCMStream
  | startRecordingPCM
  | stopRecordingPCM
  | startRecording
  | stopRecording
  | stopAudio
  | answerCall
  | hangup
  deriving Repr, DecidableEq

namespace StreamingApp

/-! ## Streaming-mode orchestrator (`src/unnamed/part_000`)

The `onCallStateChanged` listener (lines 287-343) normalises the raw
telephony state to 0 (idle) / 1 (ringing) / 2 (offhook–active) and
drives the guard flags `answeringRef` and `isProcessingRef`; the polling
watchdog (lines 346-367) drives the same flags from the periodic
`getTelephonyState` query.  `startAIWithAudioMode` (lines 229-260) is
the session-start sequence, guarded by `isProcessingRef`;
`startAIProcessing` (lines 123-200) is its body once the audio mode is
set up.  All handlers run on the single JavaScript thread, and the
guard flags are written before the first `await`, so event deliveries
are serialised; the model folds one event at a time. -/

/-- The `CallState` union type of `part_000` (line 18). -/
inductive CallState
  | idle
  | incoming
  | active
  | recording
  | processing
  | speaking
  deriving Repr, DecidableEq

/-- The guard flags and observation counters of the streaming app.
`answerCommands` counts issued `answerIncomingCall` invocations and
`sessionStarts` counts entries into the guarded body of
`startAIWithAudioMode` (the session-start sequence). -/
structure AppState where
  answering : Bool
  isProcessing : Bool
  callState : CallState
  answerCommands : Nat
  sessionStarts : Nat
  deriving Repr, DecidableEq

/-- The app as mounted: both flags clear, state idle. -/
def initialApp : AppState :=
  { answering := false, isProcessing := false, callState := .idle,
    answerCommands := 0, sessionStarts := 0 }

/-- `startAIWithAudioMode` (lines 229-260): bail out if the in-progress
flag is already set, otherwise set it, show the active state and run the
session-start sequence exactly once. -/
def startAIWithAudioMode (s : AppState) : AppState :=
  if s.isProcessing = true then s
  else
    { s with isProcessing := true, callState := .active,
             sessionStarts := s.sessionStarts + 1 }

/-- The shared active branch: both the listener's OFFHOOK case (lines
319-324) and the watchdog's active case (lines 351-354) call
`startAIWithAudioMode` under a `!isProcessingRef.current` guard. -/
def onActiveBranch (s : AppState) : AppState :=
  if s.isProcessing = true then s else startAIWithAudioMode s

/-- The shared idle teardown: both the listener's IDLE case (lines
326-341) and the watchdog's idle case (lines 356-366) clear the
in-progress flag and return the UI to idle when a session was running. -/
def onIdleTeardown (s : AppState) : AppState :=
  if s.isProcessing = true then
    { s with isProcessing := false, callState := .idle }
  else s

/-- Events delivered to the app: the push listener's three normalised
states, the watchdog's two actionable observations, and the failure
callback of an issued answer command (lines 309-312). -/
inductive TelEvent
  | notifyRinging
  | notifyActive
  | notifyIdle
  | pollActive
  | pollIdle
  | answerFails
  deriving Repr, DecidableEq

/-- One event handled as the source handlers write the flags.  RINGING
(lines 295-317): show incoming, and issue one answer command iff the
single-shot `answeringRef` is clear.  OFFHOOK (lines 319-324): clear
`answeringRef`, then the active branch.  IDLE (lines 326-342): clear
`answeringRef`, then the teardown.  The poll cases do not touch
`answeringRef`. -/
def handleEvent (s : AppState) : TelEvent → AppState
  | .notifyRinging =>
      if s.answering = true then { s with callState := .incoming }
      else
        { s with callState := .incoming, answering := true,
                 answerCommands := s.answerCommands + 1 }
  | .notifyActive => onActiveBranch { s with answering := false }
  | .notifyIdle => onIdleTeardown { s with answering := false }
  | .pollActive => onActiveBranch s
  | .pollIdle => onIdleTeardown s
  | .answerFails => { s with answering := false }

/-- A delivery classified as "active" (push notification or poll). -/
def isActiveDelivery (e : TelEvent) : Prop :=
  e = .notifyActive ∨ e = .pollActive

instance (e : TelEvent) : Decidable (isActiveDelivery e) := by
  unfold isActiveDelivery; infer_instance

end StreamingApp

/-- C1: from a state that is not yet orchestrating, delivering an
"active" notification twice in a row (push, poll, or one of each)
enters the session-start sequence exactly once: the first delivery sets
the in-progress flag and starts the session, and the second delivery,
observed while the flag is set, performs no session start. -/
theorem c1_duplicate_active_starts_once (s : StreamingApp.AppState)
    (e1 e2 : StreamingApp.TelEvent)
    (h1 : StreamingApp.isActiveDelivery e1)
    (h2 : StreamingApp.isActiveDelivery e2)
    (h : s.isProcessing = false) :
    (StreamingApp.handleEvent s e1).sessionStarts = s.sessionStarts + 1 ∧
    (StreamingApp.handleEvent s e1).isProcessing = true ∧
    (StreamingApp.handleEvent (StreamingApp.handleEvent s e1) e2).sessionStarts
      = (StreamingApp.handleEvent s e1).sessionStarts := by
  rcases h1 with h1 | h1 <;> rcases h2 with h2 | h2 <;> subst h1 <;> subst h2 <;>
    simp [StreamingApp.handleEvent, StreamingApp.onActiveBranch,
      StreamingApp.startAIWithAudioMode, h]

/-- Witness for C1: the freshly mounted app receiving an active push
notification and then the watchdog's active observation. -/
theorem c1_duplicate_active_starts_once_witness :
    StreamingApp.isActiveDelivery .notifyActive ∧
    StreamingApp.isActiveDelivery .pollActive ∧
    StreamingApp.initialApp.isProcessing = false ∧
    ((StreamingApp.handleEvent StreamingApp.initialApp .notifyActive).sessionStarts
        = StreamingApp.initialApp.sessionStarts + 1 ∧
      (StreamingApp.handleEvent StreamingApp.initialApp .notifyActive).isProcessing = true ∧
      (StreamingApp.handleEvent
          (StreamingApp.handleEvent StreamingApp.initialApp .notifyActive)
          .pollActive).sessionStarts
        = (StreamingApp.handleEvent StreamingApp.initialApp .notifyActive).sessionStarts) :=
  ⟨Or.inl rfl, Or.inr rfl, rfl,
    c1_duplicate_active_starts_once StreamingApp.initialApp .notifyActive .pollActive
      (Or.inl rfl) (Or.inr rfl) rfl⟩

/-- C2: from a state whose answering flag is clear, two consecutive
ringing notifications issue exactly one answer command — the first sets
the single-shot flag and answers, the second changes nothing — and the
flag can only be cleared by an event that leaves the ringing
classification (active or idle push notification) or by the answer
command's own failure callback. -/
theorem c2_no_double_answer (s : StreamingApp.AppState)
    (h : s.answering = false) :
    (StreamingApp.handleEvent s .notifyRinging).answerCommands
        = s.answerCommands + 1 ∧
    (StreamingApp.handleEvent s .notifyRinging).answering = true ∧
    StreamingApp.handleEvent (StreamingApp.handleEvent s .notifyRinging)
        .notifyRinging
      = StreamingApp.handleEvent s .notifyRinging ∧
    (∀ (s' : StreamingApp.AppState) (e : StreamingApp.TelEvent),
      s'.answering = true → (StreamingApp.handleEvent s' e).answering = false →
      e = .notifyActive ∨ e = .notifyIdle ∨ e = .answerFails) := by
  refine ⟨by simp [StreamingApp.handleEvent, h], by simp [StreamingApp.handleEvent, h],
    by simp [StreamingApp.handleEvent, h], ?_⟩
  intro s' e ha hc
  cases e with
  | notifyRinging =>
      exfalso
      simp [StreamingApp.handleEvent, ha] at hc
  | notifyActive => exact Or.inl rfl
  | notifyIdle => exact Or.inr (Or.inl rfl)
  | pollActive =>
      exfalso
      simp only [StreamingApp.handleEvent, StreamingApp.onActiveBranch,
        StreamingApp.startAIWithAudioMode] at hc
      by_cases hp : s'.isProcessing = true <;> simp [hp, ha] at hc
  | pollIdle =>
      exfalso
      simp only [StreamingApp.handleEvent, StreamingApp.onIdleTeardown] at hc
      by_cases hp : s'.isProcessing = true <;> simp [hp, ha] at hc
  | answerFails => exact Or.inr (Or.inr rfl)

/-- Witness for C2: the freshly mounted app receiving two ringing
notifications in a row. -/
theorem c2_no_double_answer_witness :
    StreamingApp.initialApp.answering = false ∧
    ((StreamingApp.handleEvent StreamingApp.initialApp .notifyRinging).answerCommands
        = StreamingApp.initialApp.answerCommands + 1 ∧
      (StreamingApp.handleEvent StreamingApp.initialApp .notifyRinging).answering = true ∧
      StreamingApp.handleEvent
          (StreamingApp.handleEvent StreamingApp.initialApp .notifyRinging)
          .notifyRinging
        = StreamingApp.handleEvent StreamingApp.initialApp .notifyRinging ∧
      (∀ (s' : StreamingApp.AppState) (e : StreamingApp.TelEvent),
        s'.answering = true → (StreamingApp.handleEvent s' e).answering = false →
        e = .notifyActive ∨ e = .notifyIdle ∨ e = .answerFails)) :=
  ⟨rfl, c2_no_double_answer StreamingApp.initialApp rfl⟩

namespace StreamingApp

/-- Result of one run of `startAIProcessing` (`part_000`, lines
123-200): the UI states set in order, the final value of the
in-progress flag, whether an exception escaped the handler, and the
primitives invoked. -/
structure StartResult where
  callStates : List CallState
  isProcessing : Bool
  crashed : Bool
  actions : List DeviceAction
  deriving Repr, DecidableEq

/-- `startAIProcessing` (lines 123-200) as a function of its two failure
sources: whether `websocketManager.connect` resolves (the transport
open) and whether the native `startRecordingPCM` primitive is present.
The body sets the in-progress flag and the `active` state, awaits the
connect, then starts native recording and shows `recording`; the `catch`
(lines 195-199) clears the flag and shows `idle`, letting no exception
escape. -/
def startAIProcessing (wsConnectOk recAvailable : Bool) : StartResult :=
  if wsConnectOk = true then
    if recAvailable = true then
      { callStates := [.active, .recording], isProcessing := true,
        crashed := false,
        actions := [.wsConnect, .startRecordingPCM] }
    else
      { callStates := [.active], isProcessing := true, crashed := false,
        actions := [.wsConnect] }
  else
    { callStates := [.active, .idle], isProcessing := false,
      crashed := false, actions := [.wsConnect] }

end StreamingApp

/-- C7 counterexample: when the Transport Session open fails during
session start, the orchestrator's call state does not stay `Active` —
the `catch` handler sets it to `idle`, so the last state set by the
failed start is `idle`, not `active`. -/
theorem c7_counterexample :
    (StreamingApp.startAIProcessing false true).callStates.getLast? =
        some StreamingApp.CallState.idle ∧
    (StreamingApp.startAIProcessing false true).callStates.getLast? ≠
        some StreamingApp.CallState.active := by
  decide

/-- C7 (amended): if the Transport Session open fails during session
start then, whether or not the native recording primitive is available,
the state machine never reaches `Recording` for that session, the
exception is caught (the program does not crash), no hangup of the
underlying call is issued, and the orchestrator returns to `Idle` with
the in-progress flag cleared (rather than staying `Active`). -/
theorem c7_transport_open_failure (recAvailable : Bool) :
    StreamingApp.CallState.recording ∉
        (StreamingApp.startAIProcessing false recAvailable).callStates ∧
    (StreamingApp.startAIProcessing false recAvailable).crashed = false ∧
    DeviceAction.hangup ∉
        (StreamingApp.startAIProcessing false recAvailable).actions ∧
    (StreamingApp.startAIProcessing false recAvailable).callStates.getLast? =
        some StreamingApp.CallState.idle ∧
    (StreamingApp.startAIProcessing false recAvailable).isProcessing = false := by
  cases recAvailable <;> decide

namespace BatchedApp

/-! ## Batched-mode orchestrator (`src/App.tsx`)

`processLoop` (lines 170-241) ticks once per second: it re-reads the
telephony state (breaking out when the call is gone), increments the
`duration` clock only while `isSpeakingRef` is clear, and at every
accrued multiple of `CHUNK_INTERVAL_SECONDS` closes the current
recording (when one is actually recording), hands it to
`processAudioChunk`, and starts a new recording when the re-read state
is still active, the in-progress flag still set and the speaking flag
clear.  `processAudioChunk` (lines 80-168) transcribes the chunk,
drops it when the transcription errors or the trimmed text is empty or
the no-speech placeholder, and otherwise appends a caller turn and
sends the text to the n8n backend; on return the speaking flag is clear
on every path (`onEndSpeaking`, line 160, or the `catch`, line 166).
Each loop iteration is modelled as one `LoopTick` carrying the values
the iteration reads from the mutable refs and the telephony query. -/

/-- `CHUNK_INTERVAL_SECONDS` (line 171). -/
def CHUNK_INTERVAL_SECONDS : Nat := 5

/-- The placeholder returned by the STT layer when it is not
configured (line 115). -/
def noSpeechPlaceholder : String := "[STT not configured - audio saved]"

/-- JavaScript `String.prototype.trim`: strip leading and trailing
whitespace (modelled over the character list, so it is kernel
executable). -/
def trimChars (l : List Char) : List Char :=
  ((l.dropWhile Char.isWhitespace).reverse.dropWhile Char.isWhitespace).reverse

/-- `transcription.trim()` as used at line 114. -/
def jsTrim (s : String) : String := String.mk (trimChars s.toList)

/-- The outcome `transcribeWithWhisper` delivers for a chunk: an error,
or a (possibly empty) transcription text. -/
inductive SttOutcome
  | fails (msg : String)
  | transcribes (text : String)
  deriving Repr, DecidableEq

/-- What one `processAudioChunk` call does, as observed by the loop:
turns appended, AI backend requests made, and the value of
`isSpeakingRef` when the call returns. -/
structure ChunkResult where
  callerTurns : Nat
  assistantTurns : Nat
  aiRequests : Nat
  speakingAfter : Bool
  deriving Repr, DecidableEq

/-- `processAudioChunk` (lines 80-168): a transcription error or an
empty/placeholder transcription appends nothing and requests nothing;
otherwise one caller turn is appended and one `sendToN8n` request made
(an assistant turn only on success).  `speakingAfter := false` on the
request paths reflects `onEndSpeaking` (line 144) and the resets at
lines 160 and 166; on the one `sendToN8n` interleaving in which the
interim promise rejects after the main response arrived (the C10
counterexample), `sendToN8n` returns success without `onEndSpeaking`
and `isSpeakingRef` would in fact stay set — no theorem in this file
relies on that sub-path. -/
def processAudioChunk (stt : SttOutcome) (n8nOk : Bool)
    (speakingBefore : Bool) : ChunkResult :=
  match stt with
  | .fails _ =>
      { callerTurns := 0, assistantTurns := 0, aiRequests := 0,
        speakingAfter := speakingBefore }
  | .transcribes raw =>
      if jsTrim raw = "" ∨ jsTrim raw = noSpeechPlaceholder then
        { callerTurns := 0, assistantTurns := 0, aiRequests := 0,
          speakingAfter := speakingBefore }
      else if n8nOk = true then
        { callerTurns := 1, assistantTurns := 1, aiRequests := 1,
          speakingAfter := false }
      else
        { callerTurns := 1, assistantTurns := 0, aiRequests := 1,
          speakingAfter := false }

/-- The values one loop iteration reads: `isProcessingRef` at the
`while` check, the telephony state after the 1 s sleep, `isSpeakingRef`
for this iteration, the chunk's transcription outcome and backend
result should a chunk close here, and the re-read telephony state and
in-progress flag guarding the restart of the recording. -/
structure LoopTick where
  procFlag : Bool
  telState : Nat
  speaking : Bool
  stt : SttOutcome
  n8nOk : Bool
  telStateRestart : Nat
  procRestart : Bool
  deriving Repr, DecidableEq

/-- The loop's state: the accrued non-speaking duration, whether
`recordingRef.current` exists and is actually recording, the chunks
closed so far with the durations at which they closed, the turn and
request tallies, whether the loop has exited, and the primitives
invoked. -/
structure LoopState where
  duration : Nat
  recPresent : Bool
  recActive : Bool
  chunks : Nat
  boundaries : List Nat
  callerTurns : Nat
  assistantTurns : Nat
  aiRequests : Nat
  ended : Bool
  actions : List DeviceAction
  deriving Repr, DecidableEq

/-- The loop as entered from `startAIProcessing` (lines 303-317): a
recording was just started, nothing tallied yet. -/
def initialLoop : LoopState :=
  { duration := 0, recPresent := true, recActive := true, chunks := 0,
    boundaries := [], callerTurns := 0, assistantTurns := 0,
    aiRequests := 0, ended := false, actions := [] }

/-- The restart of the capture buffer (lines 209-221): only when the
re-read telephony state is still active, the in-progress flag still
set, and the speaking flag clear. -/
def restartRecording (s : LoopState) (t : LoopTick)
    (speakingNow : Bool) : LoopState :=
  if t.telStateRestart = 2 ∧ t.procRestart = true ∧ speakingNow = false then
    { s with recPresent := true, recActive := true,
             actions := s.actions ++ [DeviceAction.startRecording] }
  else s

/-- One iteration of `processLoop` (lines 176-230). -/
def stepTick (s : LoopState) (t : LoopTick) : LoopState :=
  if s.ended = true then s
  else if t.procFlag = false then { s with ended := true }
  else if t.telState ≠ 2 then { s with ended := true }
  else
    let s1 := if t.speaking = false then
      { s with duration := s.duration + 1 } else s
    if s1.duration % CHUNK_INTERVAL_SECONDS = 0 ∧ s1.recPresent = true ∧
        t.speaking = false then
      if s1.recActive = true then
        let r := processAudioChunk t.stt t.n8nOk t.speaking
        restartRecording
          { s1 with recActive := false,
                    chunks := s1.chunks + 1,
                    boundaries := s1.boundaries ++ [s1.duration],
                    callerTurns := s1.callerTurns + r.callerTurns,
                    assistantTurns := s1.assistantTurns + r.assistantTurns,
                    aiRequests := s1.aiRequests + r.aiRequests,
                    actions := s1.actions ++ [DeviceAction.stopRecording] }
          t r.speakingAfter
      else restartRecording s1 t t.speaking
    else s1

/-- The loop over a list of iterations. -/
def runLoop (s : LoopState) (ts : List LoopTick) : LoopState :=
  ts.foldl stepTick s

/-- The cleanup after the loop exits (lines 232-240): stop any playing
audio, stop the recording. -/
def loopCleanupActions : List DeviceAction :=
  [DeviceAction.stopAudio, DeviceAction.stopRecording]

/-- An uneventful active second: call live, nobody speaking, the chunk
(if one closes) transcribing ordinary speech. -/
def normalTick : LoopTick :=
  { procFlag := true, telState := 2, speaking := false,
    stt := .transcribes "hello", n8nOk := true, telStateRestart := 2,
    procRestart := true }

end BatchedApp

/-- C3: the batched chunk loop's clock pauses while the AI is speaking —
an iteration that reads the speaking flag set leaves the loop state
(duration clock, chunk count, everything) unchanged — and an active call
of 12 elapsed seconds with chunk interval 5 and zero speaking time
closes exactly 2 audio chunks, at accrued durations 5 and 10. -/
theorem c3_chunk_clock_pauses_while_speaking :
    (∀ (s : BatchedApp.LoopState) (t : BatchedApp.LoopTick),
        t.procFlag = true → t.telState = 2 → t.speaking = true →
        s.ended = false → BatchedApp.stepTick s t = s) ∧
    (BatchedApp.runLoop BatchedApp.initialLoop
        (List.replicate 12 BatchedApp.normalTick)).chunks = 2 ∧
    (BatchedApp.runLoop BatchedApp.initialLoop
        (List.replicate 12 BatchedApp.normalTick)).boundaries = [5, 10] := by
  refine ⟨?_, by decide, by decide⟩
  intro s t hp ht hsp he
  simp [BatchedApp.stepTick, he, hp, ht, hsp]

/-- C9: a chunk whose transcription comes back empty (or as the
no-speech placeholder) at a chunk boundary of a live call appends no
caller turn, makes no AI backend request, and capture resumes
immediately — the chunk is closed and a new recording buffer is started
in the same iteration. -/
theorem c9_empty_transcription_is_noop
    (s : BatchedApp.LoopState) (t : BatchedApp.LoopTick)
    (hend : s.ended = false) (hp : t.procFlag = true)
    (ht : t.telState = 2) (hsp : t.speaking = false)
    (hb : (s.duration + 1) % BatchedApp.CHUNK_INTERVAL_SECONDS = 0)
    (hrp : s.recPresent = true) (hra : s.recActive = true)
    (hstt : ∃ raw, t.stt = BatchedApp.SttOutcome.transcribes raw ∧
      (BatchedApp.jsTrim raw = "" ∨
        BatchedApp.jsTrim raw = BatchedApp.noSpeechPlaceholder))
    (hr2 : t.telStateRestart = 2) (hpr : t.procRestart = true) :
    (BatchedApp.stepTick s t).callerTurns = s.callerTurns ∧
    (BatchedApp.stepTick s t).aiRequests = s.aiRequests ∧
    (BatchedApp.stepTick s t).chunks = s.chunks + 1 ∧
    (BatchedApp.stepTick s t).recPresent = true ∧
    (BatchedApp.stepTick s t).recActive = true ∧
    (BatchedApp.stepTick s t).actions =
      s.actions ++ [DeviceAction.stopRecording, DeviceAction.startRecording] := by
  obtain ⟨raw, hraw, hcase⟩ := hstt
  have hchunk : BatchedApp.processAudioChunk t.stt t.n8nOk false =
      { callerTurns := 0, assistantTurns := 0, aiRequests := 0,
        speakingAfter := false } := by
    rcases hcase with h | h <;>
      simp [BatchedApp.processAudioChunk, hraw, h]
  simp [BatchedApp.stepTick, BatchedApp.restartRecording, hchunk, hend, hp,
    ht, hsp, hb, hrp, hra, hr2, hpr]

/-- The loop state of the C9 witness: four seconds accrued, one tick
from a chunk boundary. -/
def c9DemoState : BatchedApp.LoopState :=
  { BatchedApp.initialLoop with duration := 4 }

/-- The iteration of the C9 witness: live call, chunk transcribing to
whitespace only. -/
def c9DemoTick : BatchedApp.LoopTick :=
  { BatchedApp.normalTick with stt := .transcribes "   " }

/-- Witness for C9 at the concrete boundary iteration whose chunk
transcribes to whitespace. -/
theorem c9_empty_transcription_is_noop_witness :
    c9DemoState.ended = false ∧ c9DemoTick.procFlag = true ∧
    c9DemoTick.telState = 2 ∧ c9DemoTick.speaking = false ∧
    (c9DemoState.duration + 1) % BatchedApp.CHUNK_INTERVAL_SECONDS = 0 ∧
    c9DemoState.recPresent = true ∧ c9DemoState.recActive = true ∧
    (∃ raw, c9DemoTick.stt = BatchedApp.SttOutcome.transcribes raw ∧
      (BatchedApp.jsTrim raw = "" ∨
        BatchedApp.jsTrim raw = BatchedApp.noSpeechPlaceholder)) ∧
    c9DemoTick.telStateRestart = 2 ∧ c9DemoTick.procRestart = true ∧
    ((BatchedApp.stepTick c9DemoState c9DemoTick).callerTurns =
        c9DemoState.callerTurns ∧
      (BatchedApp.stepTick c9DemoState c9DemoTick).aiRequests =
        c9DemoState.aiRequests ∧
      (BatchedApp.stepTick c9DemoState c9DemoTick).chunks =
        c9DemoState.chunks + 1 ∧
      (BatchedApp.stepTick c9DemoState c9DemoTick).recPresent = true ∧
      (BatchedApp.stepTick c9DemoState c9DemoTick).recActive = true ∧
      (BatchedApp.stepTick c9DemoState c9DemoTick).actions =
        c9DemoState.actions ++
          [DeviceAction.stopRecording, DeviceAction.startRecording]) :=
  ⟨rfl, rfl, rfl, rfl, by decide, rfl, rfl,
    ⟨"   ", rfl, Or.inl (by decide)⟩, rfl, rfl,
    c9_empty_transcription_is_noop c9DemoState c9DemoTick rfl rfl rfl rfl
      (by decide) rfl rfl ⟨"   ", rfl, Or.inl (by decide)⟩ rfl rfl⟩

namespace BatchedApp

/-- Result of one run of the batched `startAIProcessing` (`src/App.tsx`,
lines 243-324). -/
structure BStartResult where
  isProcessing : Bool
  crashed : Bool
  actions : List DeviceAction
  deriving Repr, DecidableEq

/-- The batched `startAIProcessing`: bail out when already processing
(lines 245-248); otherwise stop any leftover recording and audio (lines
262-263), run the greeting and start the recording; the `catch` (lines
318-323) clears the flag, returns to idle and stops the recording, and
lets no exception escape.  `setupOk` abstracts whether the audio-mode
setup and recording start succeed. -/
def startAIProcessing (alreadyProcessing setupOk : Bool) : BStartResult :=
  if alreadyProcessing = true then
    { isProcessing := true, crashed := false, actions := [] }
  else if setupOk = true then
    { isProcessing := true, crashed := false,
      actions := [DeviceAction.stopRecording, DeviceAction.stopAudio,
                  DeviceAction.startRecording] }
  else
    { isProcessing := false, crashed := false,
      actions := [DeviceAction.stopRecording, DeviceAction.stopAudio,
                  DeviceAction.stopRecording] }

theorem stepTick_no_hangup (s : LoopState) (t : LoopTick)
    (h : DeviceAction.hangup ∉ s.actions) :
    DeviceAction.hangup ∉ (stepTick s t).actions := by
  simp only [stepTick, restartRecording]
  repeat' split
  all_goals simp_all [List.mem_append]

theorem runLoop_no_hangup : ∀ (ts : List LoopTick) (s : LoopState),
    DeviceAction.hangup ∉ s.actions →
    DeviceAction.hangup ∉ (runLoop s ts).actions := by
  intro ts
  induction ts with
  | nil => intro s h; exact h
  | cons t ts ih =>
      intro s h
      exact ih _ (stepTick_no_hangup s t h)

end BatchedApp

namespace TelephonyManager

/-- `TelephonyManager.hangupCall` (`src/unnamed/part_005`, lines
720-738): issues the hangup primitive exactly when an endpoint and a
target call exist; returns whether the hangup was issued together with
the primitives invoked. -/
def hangupCall (hasEndpoint hasCall : Bool) : Bool × List DeviceAction :=
  if hasEndpoint = true ∧ hasCall = true then (true, [DeviceAction.hangup])
  else (false, [])

/-- `TelephonyManager.shutdown` (lines 898-908): hang up the current
call if one exists, then drop the endpoint. -/
def shutdown (hasEndpoint hasCall : Bool) : List DeviceAction :=
  if hasCall = true then (hangupCall hasEndpoint hasCall).2 else []

end TelephonyManager

/-- C8: no error on the AI path invokes the hangup primitive — the
streaming session start (transport connect failure included), the
batched session start (setup failure included), the batched chunk loop
(chunk transcription or backend failures included) and its cleanup never
emit a hangup — while the hangup primitive itself is reachable only
through `TelephonyManager.hangupCall`, which the core calls only from
the explicit `shutdown`. -/
theorem c8_ai_errors_never_hang_up :
    (∀ wsOk rec : Bool,
      DeviceAction.hangup ∉ (StreamingApp.startAIProcessing wsOk rec).actions) ∧
    (∀ already setup : Bool,
      DeviceAction.hangup ∉ (BatchedApp.startAIProcessing already setup).actions) ∧
    (∀ (ts : List BatchedApp.LoopTick),
      DeviceAction.hangup ∉
        (BatchedApp.runLoop BatchedApp.initialLoop ts).actions) ∧
    DeviceAction.hangup ∉ BatchedApp.loopCleanupActions ∧
    TelephonyManager.shutdown true true = [DeviceAction.hangup] ∧
    TelephonyManager.shutdown true false = [] := by
  refine ⟨?_, ?_, ?_, by decide, by decide, by decide⟩
  · intro wsOk rec
    cases wsOk <;> cases rec <;> decide
  · intro already setup
    cases already <;> cases setup <;> decide
  · intro ts
    exact BatchedApp.runLoop_no_hangup ts BatchedApp.initialLoop (by decide)

namespace N8nProcessor

/-! ## Dual-endpoint batched strategy (`src/unnamed/part_005`, `sendToN8n`,
lines 290-431)

`sendToN8n` fires the interim and the main request concurrently.  The
interim continuation (the `.then` handler, lines 342-371): on an `ok`
response with nonempty audio it calls `onStartSpeaking` and awaits
`playAudioFromBlob`; then (also when the response was not ok or the
audio empty) it sets `interimFinished` and, if `mainAudioData` has been
assigned, plays it and calls `onEndSpeaking`.  Its `.catch` (lines
372-377) only sets `interimFinished`.  The main continuation: after its
fetch it throws on a non-ok response, assigns `mainAudioData`, throws on
empty audio; then either plays immediately (when `interimFinished`) or
awaits the interim promise (lines 407-416); the `catch` (lines 424-430)
calls `onEndSpeaking` and returns failure.  JavaScript interleaves these
two continuations only at their `await` points; the model makes each
resumption explicit as an event and folds an arbitrary event schedule. -/

/-- Which utterance's audio a playback carries. -/
inductive PlaySrc
  | interim
  | main
  deriving Repr, DecidableEq

/-- Start and completion of one `playAudioFromBlob` await. -/
inductive PlayEvent
  | starts (src : PlaySrc)
  | finishes (src : PlaySrc)
  deriving Repr, DecidableEq

/-- Program counter of the interim continuation. -/
inductive IPc
  | waitingFetch
  | playingInterim
  | playingMain
  | settled
  deriving Repr, DecidableEq

/-- Program counter of the main continuation. -/
inductive MPc
  | waitingFetch
  | playingMain
  | waitingInterim
  | succeeded
  | failed
  deriving Repr, DecidableEq

/-- Outcomes of the two requests for one utterance. -/
structure N8nConfig where
  interimRejects : Bool
  interimOk : Bool
  interimBytes : Nat
  mainOk : Bool
  mainBytes : Nat
  deriving Repr, DecidableEq

/-- The shared mutable state of one `sendToN8n` call plus the ordered
trace of playback events and the speaking-callback tallies. -/
structure N8nState where
  iPc : IPc
  mPc : MPc
  interimFinished : Bool
  mainAudioData : Option Nat
  plays : List PlayEvent
  startSignals : Nat
  endSignals : Nat
  deriving Repr, DecidableEq

/-- Both continuations parked on their fetches, nothing played. -/
def initialN8n : N8nState :=
  { iPc := .waitingFetch, mPc := .waitingFetch, interimFinished := false,
    mainAudioData := none, plays := [], startSignals := 0, endSignals := 0 }

/-- The interim promise settling resumes a main continuation parked on
`await interimPromise` (lines 413-416), which then returns success. -/
def resolveJoin (s : N8nState) : N8nState :=
  if s.mPc = .waitingInterim then { s with mPc := .succeeded } else s

/-- Lines 364-371: set `interimFinished`; if `mainAudioData` has been
assigned (any ArrayBuffer is truthy, even an empty one), play it inside
the interim handler — with no `onStartSpeaking` call on this path. -/
def interimTail (s : N8nState) : N8nState :=
  if s.mainAudioData ≠ none then
    { s with interimFinished := true, iPc := .playingMain,
             plays := s.plays ++ [PlayEvent.starts .main] }
  else
    resolveJoin { s with interimFinished := true, iPc := .settled }

/-- The scheduler's resumption events: a fetch settling, or the awaited
playback resolving. -/
inductive N8nEvent
  | interimSettles
  | mainSettles
  | playbackSettles
  deriving Repr, DecidableEq

/-- One resumption of `sendToN8n`'s continuations. -/
def n8nStep (cfg : N8nConfig) (s : N8nState) : N8nEvent → N8nState
  | .interimSettles =>
      if s.iPc = .waitingFetch then
        if cfg.interimRejects = true then
          resolveJoin { s with interimFinished := true, iPc := .settled }
        else if cfg.interimOk = true ∧ cfg.interimBytes > 0 then
          { s with iPc := .playingInterim,
                   plays := s.plays ++ [PlayEvent.starts .interim],
                   startSignals := s.startSignals + 1 }
        else interimTail s
      else s
  | .mainSettles =>
      if s.mPc = .waitingFetch then
        if cfg.mainOk = true then
          if cfg.mainBytes > 0 then
            if s.interimFinished = true then
              { s with mainAudioData := some cfg.mainBytes,
                       mPc := .playingMain,
                       plays := s.plays ++ [PlayEvent.starts .main],
                       startSignals := s.startSignals + 1 }
            else
              { s with mainAudioData := some cfg.mainBytes,
                       mPc := .waitingInterim }
          else
            { s with mainAudioData := some cfg.mainBytes, mPc := .failed,
                     endSignals := s.endSignals + 1 }
        else { s with mPc := .failed, endSignals := s.endSignals + 1 }
      else s
  | .playbackSettles =>
      if s.iPc = .playingInterim then
        interimTail { s with plays := s.plays ++ [PlayEvent.finishes .interim] }
      else if s.iPc = .playingMain then
        resolveJoin
          { s with plays := s.plays ++ [PlayEvent.finishes .main],
                   iPc := .settled, endSignals := s.endSignals + 1 }
      else if s.mPc = .playingMain then
        { s with plays := s.plays ++ [PlayEvent.finishes .main],
                 mPc := .succeeded, endSignals := s.endSignals + 1 }
      else s

/-- Fold an event schedule through one `sendToN8n` call. -/
def n8nRun (cfg : N8nConfig) (s : N8nState) (evs : List N8nEvent) : N8nState :=
  evs.foldl (n8nStep cfg) s

/-- A trace of completed, non-overlapping playbacks. -/
def paired : List PlayEvent → Bool
  | [] => true
  | PlayEvent.starts a :: PlayEvent.finishes b :: rest => a == b && paired rest
  | _ => false

/-- Completed non-overlapping playbacks followed by one still-running
playback of `src`. -/
def pairedThenOpen (src : PlaySrc) : List PlayEvent → Bool
  | [PlayEvent.starts a] => a == src
  | PlayEvent.starts a :: PlayEvent.finishes b :: rest =>
      a == b && pairedThenOpen src rest
  | _ => false

/-- At most one playback in flight at any instant: the trace is a
sequence of completed playbacks, at most one of them still open at the
end. -/
def pairedMaybeOpen : List PlayEvent → Bool
  | [] => true
  | [PlayEvent.starts _] => true
  | PlayEvent.starts a :: PlayEvent.finishes b :: rest =>
      a == b && pairedMaybeOpen rest
  | _ => false

theorem paired_snoc_start (src : PlaySrc) : ∀ l : List PlayEvent,
    paired l = true → pairedThenOpen src (l ++ [PlayEvent.starts src]) = true := by
  intro l
  induction l using paired.induct with
  | case1 => intro _; simp [pairedThenOpen]
  | case2 a b rest ih =>
      intro h
      simp only [paired, Bool.and_eq_true, beq_iff_eq] at h
      simp only [List.cons_append, pairedThenOpen, Bool.and_eq_true, beq_iff_eq]
      exact ⟨h.1, ih h.2⟩
  | case3 x h1 h2 =>
      intro h
      simp [paired] at h

theorem pairedThenOpen_snoc_finish (src : PlaySrc) : ∀ l : List PlayEvent,
    pairedThenOpen src l = true →
    paired (l ++ [PlayEvent.finishes src]) = true := by
  intro l
  induction l using pairedMaybeOpen.induct with
  | case1 => intro h; simp [pairedThenOpen] at h
  | case2 a =>
      intro h
      simp only [pairedThenOpen, beq_iff_eq] at h
      simp [paired, h]
  | case3 a b rest ih =>
      intro h
      simp only [pairedThenOpen, Bool.and_eq_true, beq_iff_eq] at h
      simp only [List.cons_append, paired, Bool.and_eq_true, beq_iff_eq]
      exact ⟨h.1, ih h.2⟩
  | case4 x h1 h2 h3 =>
      intro h
      simp [pairedThenOpen] at h

theorem paired_pairedMaybeOpen : ∀ l : List PlayEvent,
    paired l = true → pairedMaybeOpen l = true := by
  intro l
  induction l using paired.induct with
  | case1 => intro _; rfl
  | case2 a b rest ih =>
      intro h
      simp only [paired, Bool.and_eq_true, beq_iff_eq] at h
      simp only [pairedMaybeOpen, Bool.and_eq_true, beq_iff_eq]
      exact ⟨h.1, ih h.2⟩
  | case3 x h1 h2 =>
      intro h
      simp [paired] at h

theorem pairedThenOpen_pairedMaybeOpen (src : PlaySrc) : ∀ l : List PlayEvent,
    pairedThenOpen src l = true → pairedMaybeOpen l = true := by
  intro l
  induction l using pairedMaybeOpen.induct with
  | case1 => intro _; rfl
  | case2 a => intro _; rfl
  | case3 a b rest ih =>
      intro h
      simp only [pairedThenOpen, Bool.and_eq_true, beq_iff_eq] at h
      simp only [pairedMaybeOpen, Bool.and_eq_true, beq_iff_eq]
      exact ⟨h.1, ih h.2⟩
  | case4 x h1 h2 h3 =>
      intro h
      simp [pairedThenOpen] at h

/-- Control-state sanity of one `sendToN8n` call: `interimFinished` is
set only once the interim continuation is past its own playback; the
main continuation plays only after the interim settled; the interim
handler plays the main audio only once it was assigned; `mainAudioData`
is assigned only once the main fetch settled; and a main continuation
parked on the interim promise has its audio assigned. -/
def wellFormed (s : N8nState) : Prop :=
  (s.interimFinished = true → s.iPc = IPc.settled ∨ s.iPc = IPc.playingMain) ∧
  (s.mPc = MPc.playingMain → s.interimFinished = true ∧ s.iPc = IPc.settled) ∧
  (s.iPc = IPc.playingMain →
    s.mainAudioData ≠ none ∧ s.interimFinished = true) ∧
  (s.mainAudioData ≠ none → s.mPc ≠ MPc.waitingFetch) ∧
  (s.mPc = MPc.waitingInterim → s.mainAudioData ≠ none)

/-- The playback trace matches the control state: whichever continuation
is inside a `playAudioFromBlob` await owns the one open playback, and
with no continuation playing the trace is a sequence of completed
playbacks. -/
def playInvariant (s : N8nState) : Prop :=
  (s.iPc = IPc.playingInterim →
    pairedThenOpen PlaySrc.interim s.plays = true) ∧
  (s.iPc = IPc.playingMain → pairedThenOpen PlaySrc.main s.plays = true) ∧
  (s.mPc = MPc.playingMain → pairedThenOpen PlaySrc.main s.plays = true) ∧
  (s.iPc ≠ IPc.playingInterim → s.iPc ≠ IPc.playingMain →
    s.mPc ≠ MPc.playingMain → paired s.plays = true)


theorem n8nStep_preserves (cfg : N8nConfig) (s : N8nState) (e : N8nEvent)
    (hw : wellFormed s) (hpi : playInvariant s) :
    wellFormed (n8nStep cfg s e) ∧ playInvariant (n8nStep cfg s e) := by
  obtain ⟨w1, w2, w3, w4, w5⟩ := hw
  obtain ⟨p1, p2, p3, p4⟩ := hpi
  cases e with
  | interimSettles =>
      by_cases hif : s.iPc = IPc.waitingFetch
      · have hfin : s.interimFinished = false := by
          cases hfb : s.interimFinished
          · rfl
          · rcases w1 hfb with h | h <;> rw [h] at hif <;> simp at hif
        have hmP : s.mPc ≠ MPc.playingMain := by
          intro hm
          rw [(w2 hm).2] at hif
          simp at hif
        have hpr : paired s.plays = true :=
          p4 (by rw [hif]; simp) (by rw [hif]; simp) hmP
        by_cases hrej : cfg.interimRejects = true
        · by_cases hwi : s.mPc = MPc.waitingInterim
          · have hs : n8nStep cfg s .interimSettles =
                { s with interimFinished := true, iPc := IPc.settled,
                         mPc := MPc.succeeded } := by
              simp [n8nStep, resolveJoin, hif, hrej, hwi]
            rw [hs]
            exact ⟨⟨fun _ => Or.inl rfl, by simp, by simp,
                fun hd => by simp, by simp⟩,
              by simp, by simp, by simp, fun _ _ _ => hpr⟩
          · have hs : n8nStep cfg s .interimSettles =
                { s with interimFinished := true, iPc := IPc.settled } := by
              simp [n8nStep, resolveJoin, hif, hrej, hwi]
            rw [hs]
            exact ⟨⟨fun _ => Or.inl rfl, fun hm => absurd hm hmP, by simp,
                fun hd => w4 hd, fun hm => w5 hm⟩,
              by simp, by simp, fun hm => absurd hm hmP, fun _ _ _ => hpr⟩
        · by_cases hok : cfg.interimOk = true ∧ cfg.interimBytes > 0
          · have hs : n8nStep cfg s .interimSettles =
                { s with iPc := IPc.playingInterim,
                         plays := s.plays ++ [PlayEvent.starts PlaySrc.interim],
                         startSignals := s.startSignals + 1 } := by
              simp [n8nStep, hif, hrej, hok.1, hok.2]
            rw [hs]
            refine ⟨⟨?_, ?_, by simp, fun hd => w4 hd, fun hm => w5 hm⟩,
              fun _ => paired_snoc_start _ _ hpr, by simp,
              fun hm => absurd hm hmP, fun hx => absurd rfl hx⟩
            · intro hfb
              rw [hfin] at hfb
              simp at hfb
            · intro hm
              exact absurd hm hmP
          · by_cases hma : s.mainAudioData = none
            · have hwi : s.mPc ≠ MPc.waitingInterim := by
                intro hm
                exact absurd hma (by simpa using w5 hm)
              have hs : n8nStep cfg s .interimSettles =
                  { s with interimFinished := true, iPc := IPc.settled } := by
                simp [n8nStep, interimTail, resolveJoin, hif, hrej, hok, hma,
                  hwi]
              rw [hs]
              exact ⟨⟨fun _ => Or.inl rfl, fun hm => absurd hm hmP, by simp,
                  fun hd => w4 hd, fun hm => w5 hm⟩,
                by simp, by simp, fun hm => absurd hm hmP, fun _ _ _ => hpr⟩
            · have hs : n8nStep cfg s .interimSettles =
                  { s with interimFinished := true, iPc := IPc.playingMain,
                           plays := s.plays ++ [PlayEvent.starts PlaySrc.main] } := by
                simp [n8nStep, interimTail, hif, hrej, hok, hma]
              rw [hs]
              exact ⟨⟨fun _ => Or.inr rfl, fun hm => absurd hm hmP,
                  fun _ => ⟨hma, rfl⟩, fun hd => w4 hd, fun hm => w5 hm⟩,
                by simp, fun _ => paired_snoc_start _ _ hpr,
                fun hm => absurd hm hmP, fun _ hx => absurd rfl hx⟩
      · have hs : n8nStep cfg s .interimSettles = s := by
          simp [n8nStep, hif]
        rw [hs]
        exact ⟨⟨w1, w2, w3, w4, w5⟩, p1, p2, p3, p4⟩
  | mainSettles =>
      by_cases hmf : s.mPc = MPc.waitingFetch
      · have hma0 : s.mainAudioData = none := by
          by_cases h : s.mainAudioData = none
          · exact h
          · exact absurd hmf (w4 h)
        have hiP : s.iPc ≠ IPc.playingMain := by
          intro h
          exact absurd hma0 (by simpa using (w3 h).1)
        by_cases hok : cfg.mainOk = true
        · by_cases hby : cfg.mainBytes > 0
          · by_cases hfin : s.interimFinished = true
            · have hset : s.iPc = IPc.settled := by
                rcases w1 hfin with h | h
                · exact h
                · exact absurd h hiP
              have hpr : paired s.plays = true :=
                p4 (by rw [hset]; simp) hiP (by rw [hmf]; simp)
              have hs : n8nStep cfg s .mainSettles =
                  { s with mainAudioData := some cfg.mainBytes,
                           mPc := MPc.playingMain,
                           plays := s.plays ++ [PlayEvent.starts PlaySrc.main],
                           startSignals := s.startSignals + 1 } := by
                simp [n8nStep, hmf, hok, hby, hfin]
              rw [hs]
              refine ⟨⟨fun _ => Or.inl hset, fun _ => ⟨hfin, hset⟩, ?_,
                  fun _ => by simp, by simp⟩,
                ?_, ?_, fun _ => paired_snoc_start _ _ hpr,
                fun _ _ hx => absurd rfl hx⟩
              · intro h; exact absurd h hiP
              · intro h
                rw [hset] at h
                exact absurd h (by simp)
              · intro h; exact absurd h hiP
            · have hs : n8nStep cfg s .mainSettles =
                  { s with mainAudioData := some cfg.mainBytes,
                           mPc := MPc.waitingInterim } := by
                simp [n8nStep, hmf, hok, hby, hfin]
              rw [hs]
              refine ⟨⟨w1, by simp, ?_, fun _ => by simp, fun _ => by simp⟩,
                p1, ?_, by simp, ?_⟩
              · intro h; exact absurd h hiP
              · intro h; exact absurd h hiP
              · intro ha hb _
                exact p4 ha hb (by rw [hmf]; simp)
          · have hs : n8nStep cfg s .mainSettles =
                { s with mainAudioData := some cfg.mainBytes,
                         mPc := MPc.failed,
                         endSignals := s.endSignals + 1 } := by
              simp [n8nStep, hmf, hok, hby]
            rw [hs]
            refine ⟨⟨w1, by simp, ?_, fun _ => by simp, by simp⟩,
              p1, ?_, by simp, ?_⟩
            · intro h; exact absurd h hiP
            · intro h; exact absurd h hiP
            · intro ha hb _
              exact p4 ha hb (by rw [hmf]; simp)
        · have hs : n8nStep cfg s .mainSettles =
              { s with mPc := MPc.failed,
                       endSignals := s.endSignals + 1 } := by
            simp [n8nStep, hmf, hok]
          rw [hs]
          refine ⟨⟨w1, by simp, ?_, fun _ => by simp, by simp⟩,
            p1, ?_, by simp, ?_⟩
          · intro h; exact absurd h hiP
          · intro h; exact absurd h hiP
          · intro ha hb _
            exact p4 ha hb (by rw [hmf]; simp)
      · have hs : n8nStep cfg s .mainSettles = s := by
          simp [n8nStep, hmf]
        rw [hs]
        exact ⟨⟨w1, w2, w3, w4, w5⟩, p1, p2, p3, p4⟩
  | playbackSettles =>
      by_cases h1 : s.iPc = IPc.playingInterim
      · have hto : pairedThenOpen PlaySrc.interim s.plays = true := p1 h1
        have hprf :
            paired (s.plays ++ [PlayEvent.finishes PlaySrc.interim]) = true :=
          pairedThenOpen_snoc_finish _ _ hto
        have hmP : s.mPc ≠ MPc.playingMain := by
          intro hm
          rw [(w2 hm).2] at h1
          simp at h1
        by_cases hma : s.mainAudioData = none
        · have hwi : s.mPc ≠ MPc.waitingInterim := by
            intro hm
            exact absurd hma (by simpa using w5 hm)
          have hs : n8nStep cfg s .playbackSettles =
              { s with plays := s.plays ++ [PlayEvent.finishes PlaySrc.interim],
                       interimFinished := true, iPc := IPc.settled } := by
            simp [n8nStep, interimTail, resolveJoin, h1, hma, hwi]
          rw [hs]
          exact ⟨⟨fun _ => Or.inl rfl, fun hm => absurd hm hmP, by simp,
              fun hd => w4 hd, fun hm => w5 hm⟩,
            by simp, by simp, fun hm => absurd hm hmP, fun _ _ _ => hprf⟩
        · have hpo : pairedThenOpen PlaySrc.main
              (s.plays ++ [PlayEvent.finishes PlaySrc.interim,
                PlayEvent.starts PlaySrc.main]) = true := by
            have := paired_snoc_start PlaySrc.main _ hprf
            simpa using this
          have hs : n8nStep cfg s .playbackSettles =
              { s with plays := s.plays ++ [PlayEvent.finishes PlaySrc.interim,
                         PlayEvent.starts PlaySrc.main],
                       interimFinished := true, iPc := IPc.playingMain } := by
            simp [n8nStep, interimTail, h1, hma]
          rw [hs]
          exact ⟨⟨fun _ => Or.inr rfl, fun hm => absurd hm hmP,
              fun _ => ⟨hma, rfl⟩, fun hd => w4 hd, fun hm => w5 hm⟩,
            by simp, fun _ => hpo, fun hm => absurd hm hmP,
            fun _ hx => absurd rfl hx⟩
      · by_cases h2 : s.iPc = IPc.playingMain
        · have hto : pairedThenOpen PlaySrc.main s.plays = true := p2 h2
          have hprf :
              paired (s.plays ++ [PlayEvent.finishes PlaySrc.main]) = true :=
            pairedThenOpen_snoc_finish _ _ hto
          have hmP : s.mPc ≠ MPc.playingMain := by
            intro hm
            rw [(w2 hm).2] at h2
            simp at h2
          by_cases hwi : s.mPc = MPc.waitingInterim
          · have hs : n8nStep cfg s .playbackSettles =
                { s with plays := s.plays ++ [PlayEvent.finishes PlaySrc.main],
                         iPc := IPc.settled, mPc := MPc.succeeded,
                         endSignals := s.endSignals + 1 } := by
              simp [n8nStep, resolveJoin, h1, h2, hwi]
            rw [hs]
            exact ⟨⟨fun _ => Or.inl rfl, by simp, by simp,
                fun _ => by simp, by simp⟩,
              by simp, by simp, by simp, fun _ _ _ => hprf⟩
          · have hs : n8nStep cfg s .playbackSettles =
                { s with plays := s.plays ++ [PlayEvent.finishes PlaySrc.main],
                         iPc := IPc.settled,
                         endSignals := s.endSignals + 1 } := by
              simp [n8nStep, resolveJoin, h1, h2, hwi]
            rw [hs]
            exact ⟨⟨fun _ => Or.inl rfl, fun hm => absurd hm hmP, by simp,
                fun hd => w4 hd, fun hm => w5 hm⟩,
              by simp, by simp, fun hm => absurd hm hmP, fun _ _ _ => hprf⟩
        · by_cases h3 : s.mPc = MPc.playingMain
          · have hto : pairedThenOpen PlaySrc.main s.plays = true := p3 h3
            have hprf :
                paired (s.plays ++ [PlayEvent.finishes PlaySrc.main]) = true :=
              pairedThenOpen_snoc_finish _ _ hto
            have hset : s.iPc = IPc.settled := (w2 h3).2
            have hs : n8nStep cfg s .playbackSettles =
                { s with plays := s.plays ++ [PlayEvent.finishes PlaySrc.main],
                         mPc := MPc.succeeded,
                         endSignals := s.endSignals + 1 } := by
              simp [n8nStep, h1, h2, h3]
            rw [hs]
            refine ⟨⟨fun _ => Or.inl hset, by simp, ?_, fun _ => by simp,
                by simp⟩, ?_, ?_, by simp, fun _ _ _ => hprf⟩
            · intro h; exact absurd h h2
            · intro h; exact absurd h h1
            · intro h; exact absurd h h2
          · have hs : n8nStep cfg s .playbackSettles = s := by
              simp [n8nStep, h1, h2, h3]
            rw [hs]
            exact ⟨⟨w1, w2, w3, w4, w5⟩, p1, p2, p3, p4⟩

theorem n8nRun_preserves (cfg : N8nConfig) : ∀ (evs : List N8nEvent)
    (s : N8nState), wellFormed s → playInvariant s →
    wellFormed (n8nRun cfg s evs) ∧ playInvariant (n8nRun cfg s evs) := by
  intro evs
  induction evs with
  | nil => intro s hw hp; exact ⟨hw, hp⟩
  | cons e evs ih =>
      intro s hw hp
      have h := n8nStep_preserves cfg s e hw hp
      exact ih _ h.1 h.2

theorem playInvariant_pairedMaybeOpen (s : N8nState)
    (h : playInvariant s) : pairedMaybeOpen s.plays = true := by
  obtain ⟨p1, p2, p3, p4⟩ := h
  by_cases h1 : s.iPc = IPc.playingInterim
  · exact pairedThenOpen_pairedMaybeOpen _ _ (p1 h1)
  by_cases h2 : s.iPc = IPc.playingMain
  · exact pairedThenOpen_pairedMaybeOpen _ _ (p2 h2)
  by_cases h3 : s.mPc = MPc.playingMain
  · exact pairedThenOpen_pairedMaybeOpen _ _ (p3 h3)
  exact paired_pairedMaybeOpen _ (p4 h1 h2 h3)

/-- Both requests succeed with nonempty audio. -/
def okN8nConfig : N8nConfig :=
  { interimRejects := false, interimOk := true, interimBytes := 3,
    mainOk := true, mainBytes := 7 }

/-- The interim promise rejects (network error, or its playback threw);
the main request succeeds with nonempty audio. -/
def rejectingN8nConfig : N8nConfig :=
  { interimRejects := true, interimOk := false, interimBytes := 0,
    mainOk := true, mainBytes := 7 }

/-- The main response settles before the interim response. -/
def mainFirstSchedule : List N8nEvent :=
  [.mainSettles, .interimSettles, .playbackSettles, .playbackSettles]

/-- The interim response settles and finishes playing before the main
response arrives. -/
def interimFirstSchedule : List N8nEvent :=
  [.interimSettles, .playbackSettles, .mainSettles, .playbackSettles]

/-- The main response settles, then the interim promise rejects. -/
def mainDroppedSchedule : List N8nEvent :=
  [.mainSettles, .interimSettles]

theorem wellFormed_initial : wellFormed initialN8n := by
  refine ⟨?_, ?_, ?_, ?_, ?_⟩ <;> intro h <;> simp [initialN8n] at h

theorem playInvariant_initial : playInvariant initialN8n := by
  refine ⟨?_, ?_, ?_, fun _ _ _ => rfl⟩ <;> intro h <;>
    simp [initialN8n] at h

/-- As long as the interim promise does not reject, any continuation
that has started (or completed) playing the main audio has a
`starts main` event in the trace — in particular a successful return of
`sendToN8n` implies the main response's audio playback was started. -/
def mainPlayedInvariant (cfg : N8nConfig) (s : N8nState) : Prop :=
  cfg.interimRejects = false →
  ((s.mPc = MPc.succeeded →
      PlayEvent.starts PlaySrc.main ∈ s.plays) ∧
   (s.iPc = IPc.playingMain →
      PlayEvent.starts PlaySrc.main ∈ s.plays) ∧
   (s.mPc = MPc.playingMain →
      PlayEvent.starts PlaySrc.main ∈ s.plays))

theorem mainPlayedInvariant_initial (cfg : N8nConfig) :
    mainPlayedInvariant cfg initialN8n := by
  intro _
  refine ⟨?_, ?_, ?_⟩ <;> intro h <;> simp [initialN8n] at h

theorem n8nStep_mainPlayed (cfg : N8nConfig) (s : N8nState) (e : N8nEvent)
    (hw : wellFormed s) (hmp : mainPlayedInvariant cfg s) :
    mainPlayedInvariant cfg (n8nStep cfg s e) := by
  intro hrej
  obtain ⟨w1, w2, w3, w4, w5⟩ := hw
  obtain ⟨m1, m2, m3⟩ := hmp hrej
  have hrejb : ¬ cfg.interimRejects = true := by rw [hrej]; simp
  cases e with
  | interimSettles =>
      by_cases hif : s.iPc = IPc.waitingFetch
      · by_cases hok : cfg.interimOk = true ∧ cfg.interimBytes > 0
        · have hs : n8nStep cfg s .interimSettles =
              { s with iPc := IPc.playingInterim,
                       plays := s.plays ++ [PlayEvent.starts PlaySrc.interim],
                       startSignals := s.startSignals + 1 } := by
            simp [n8nStep, hif, hrejb, hok.1, hok.2]
          rw [hs]
          refine ⟨fun hm => List.mem_append_left _ (m1 hm),
            ?_, fun hm => List.mem_append_left _ (m3 hm)⟩
          intro h
          simp at h
        · by_cases hma : s.mainAudioData = none
          · have hwi : s.mPc ≠ MPc.waitingInterim := by
              intro hm
              exact absurd hma (by simpa using w5 hm)
            have hs : n8nStep cfg s .interimSettles =
                { s with interimFinished := true, iPc := IPc.settled } := by
              simp [n8nStep, interimTail, resolveJoin, hif, hrejb, hok, hma,
                hwi]
            rw [hs]
            refine ⟨fun hm => m1 hm, ?_, fun hm => m3 hm⟩
            intro h
            simp at h
          · have hs : n8nStep cfg s .interimSettles =
                { s with interimFinished := true, iPc := IPc.playingMain,
                         plays := s.plays ++ [PlayEvent.starts PlaySrc.main] } := by
              simp [n8nStep, interimTail, hif, hrejb, hok, hma]
            rw [hs]
            exact ⟨fun hm => List.mem_append_left _ (m1 hm),
              fun _ => List.mem_append_right _ (by simp),
              fun hm => List.mem_append_left _ (m3 hm)⟩
      · have hs : n8nStep cfg s .interimSettles = s := by
          simp [n8nStep, hif]
        rw [hs]
        exact ⟨m1, m2, m3⟩
  | mainSettles =>
      by_cases hmf : s.mPc = MPc.waitingFetch
      · by_cases hok : cfg.mainOk = true
        · by_cases hby : cfg.mainBytes > 0
          · by_cases hfin : s.interimFinished = true
            · have hs : n8nStep cfg s .mainSettles =
                  { s with mainAudioData := some cfg.mainBytes,
                           mPc := MPc.playingMain,
                           plays := s.plays ++ [PlayEvent.starts PlaySrc.main],
                           startSignals := s.startSignals + 1 } := by
                simp [n8nStep, hmf, hok, hby, hfin]
              rw [hs]
              refine ⟨?_, fun hm => List.mem_append_left _ (m2 hm),
                fun _ => List.mem_append_right _ (by simp)⟩
              intro h
              simp at h
            · have hs : n8nStep cfg s .mainSettles =
                  { s with mainAudioData := some cfg.mainBytes,
                           mPc := MPc.waitingInterim } := by
                simp [n8nStep, hmf, hok, hby, hfin]
              rw [hs]
              refine ⟨?_, fun hm => m2 hm, ?_⟩ <;> intro h <;> simp at h
          · have hs : n8nStep cfg s .mainSettles =
                { s with mainAudioData := some cfg.mainBytes,
                         mPc := MPc.failed,
                         endSignals := s.endSignals + 1 } := by
              simp [n8nStep, hmf, hok, hby]
            rw [hs]
            refine ⟨?_, fun hm => m2 hm, ?_⟩ <;> intro h <;> simp at h
        · have hs : n8nStep cfg s .mainSettles =
              { s with mPc := MPc.failed,
                       endSignals := s.endSignals + 1 } := by
            simp [n8nStep, hmf, hok]
          rw [hs]
          refine ⟨?_, fun hm => m2 hm, ?_⟩ <;> intro h <;> simp at h
      · have hs : n8nStep cfg s .mainSettles = s := by
          simp [n8nStep, hmf]
        rw [hs]
        exact ⟨m1, m2, m3⟩
  | playbackSettles =>
      by_cases h1 : s.iPc = IPc.playingInterim
      · by_cases hma : s.mainAudioData = none
        · have hwi : s.mPc ≠ MPc.waitingInterim := by
            intro hm
            exact absurd hma (by simpa using w5 hm)
          have hs : n8nStep cfg s .playbackSettles =
              { s with plays := s.plays ++ [PlayEvent.finishes PlaySrc.interim],
                       interimFinished := true, iPc := IPc.settled } := by
            simp [n8nStep, interimTail, resolveJoin, h1, hma, hwi]
          rw [hs]
          refine ⟨fun hm => List.mem_append_left _ (m1 hm), ?_,
            fun hm => List.mem_append_left _ (m3 hm)⟩
          intro h
          simp at h
        · have hs : n8nStep cfg s .playbackSettles =
              { s with plays := s.plays ++ [PlayEvent.finishes PlaySrc.interim,
                         PlayEvent.starts PlaySrc.main],
                       interimFinished := true, iPc := IPc.playingMain } := by
            simp [n8nStep, interimTail, h1, hma]
          rw [hs]
          exact ⟨fun hm => List.mem_append_left _ (m1 hm),
            fun _ => List.mem_append_right _ (by simp),
            fun hm => List.mem_append_left _ (m3 hm)⟩
      · by_cases h2 : s.iPc = IPc.playingMain
        · by_cases hwi : s.mPc = MPc.waitingInterim
          · have hs : n8nStep cfg s .playbackSettles =
                { s with plays := s.plays ++ [PlayEvent.finishes PlaySrc.main],
                         iPc := IPc.settled, mPc := MPc.succeeded,
                         endSignals := s.endSignals + 1 } := by
              simp [n8nStep, resolveJoin, h1, h2, hwi]
            rw [hs]
            refine ⟨fun _ => List.mem_append_left _ (m2 h2), ?_, ?_⟩ <;>
              intro h <;> simp at h
          · have hs : n8nStep cfg s .playbackSettles =
                { s with plays := s.plays ++ [PlayEvent.finishes PlaySrc.main],
                         iPc := IPc.settled,
                         endSignals := s.endSignals + 1 } := by
              simp [n8nStep, resolveJoin, h1, h2, hwi]
            rw [hs]
            refine ⟨fun hm => List.mem_append_left _ (m1 hm), ?_,
              fun hm => List.mem_append_left _ (m3 hm)⟩
            intro h
            simp at h
        · by_cases h3 : s.mPc = MPc.playingMain
          · have hs : n8nStep cfg s .playbackSettles =
                { s with plays := s.plays ++ [PlayEvent.finishes PlaySrc.main],
                         mPc := MPc.succeeded,
                         endSignals := s.endSignals + 1 } := by
              simp [n8nStep, h1, h2, h3]
            rw [hs]
            refine ⟨fun _ => List.mem_append_left _ (m3 h3),
              fun hm => List.mem_append_left _ (m2 hm), ?_⟩
            intro h
            simp at h
          · have hs : n8nStep cfg s .playbackSettles = s := by
              simp [n8nStep, h1, h2, h3]
            rw [hs]
            exact ⟨m1, m2, m3⟩

theorem n8nRun_mainPlayed (cfg : N8nConfig) : ∀ (evs : List N8nEvent)
    (s : N8nState), wellFormed s → playInvariant s →
    mainPlayedInvariant cfg s →
    mainPlayedInvariant cfg (n8nRun cfg s evs) := by
  intro evs
  induction evs with
  | nil => intro s _ _ hm; exact hm
  | cons e evs ih =>
      intro s hw hp hm
      have h := n8nStep_preserves cfg s e hw hp
      exact ih _ h.1 h.2 (n8nStep_mainPlayed cfg s e ⟨hw.1, hw.2.1, hw.2.2.1, hw.2.2.2.1, hw.2.2.2.2⟩ hm)

end N8nProcessor

/-- C10 counterexample: with both responses requested concurrently and
both succeeding, a schedule in which the main response's audio is ready
first (its fetch settles before the interim's) still plays the interim's
audio first — the first playback started is the interim's, refuting
"whichever response's audio is ready first is played first".  Moreover,
when the interim promise rejects after the main response has arrived,
`sendToN8n` returns success yet the main response's audio is never
played, refuting "the final response's audio is always played". -/
theorem c10_counterexample :
    (N8nProcessor.n8nRun N8nProcessor.okN8nConfig N8nProcessor.initialN8n
        [N8nProcessor.N8nEvent.mainSettles]).mainAudioData = some 7 ∧
    (N8nProcessor.n8nRun N8nProcessor.okN8nConfig N8nProcessor.initialN8n
        [N8nProcessor.N8nEvent.mainSettles]).plays = [] ∧
    (N8nProcessor.n8nRun N8nProcessor.okN8nConfig N8nProcessor.initialN8n
        N8nProcessor.mainFirstSchedule).plays.head? =
      some (N8nProcessor.PlayEvent.starts N8nProcessor.PlaySrc.interim) ∧
    (N8nProcessor.n8nRun N8nProcessor.rejectingN8nConfig
        N8nProcessor.initialN8n N8nProcessor.mainDroppedSchedule).mPc =
      N8nProcessor.MPc.succeeded ∧
    (N8nProcessor.n8nRun N8nProcessor.rejectingN8nConfig
        N8nProcessor.initialN8n N8nProcessor.mainDroppedSchedule).plays
      = [] := by
  decide

/-- C10 (amended): over every request outcome and every interleaving of
the two continuations, at most one playback is in flight at any instant
(the playback trace is a sequence of completed playbacks with at most
the last one still open).  When both responses succeed with nonempty
audio, the interim's audio is played first and the main response's audio
is always played afterwards: if the main response arrives while the
interim is pending or playing, its playback starts once the interim's
finishes, and if it arrives after the interim finished, its playback
starts immediately on arrival; in both runs the trace is interim then
main, each played exactly once, and `sendToN8n` returns success.
Moreover, over every interleaving in which the interim promise does not
reject, a successful return of `sendToN8n` implies the main response's
audio playback was started — the final response is dropped only on the
rejecting path of the counterexample. -/
theorem c10_at_most_one_playback :
    (∀ (cfg : N8nProcessor.N8nConfig) (evs : List N8nProcessor.N8nEvent),
      N8nProcessor.pairedMaybeOpen
        (N8nProcessor.n8nRun cfg N8nProcessor.initialN8n evs).plays = true) ∧
    (N8nProcessor.n8nRun N8nProcessor.okN8nConfig N8nProcessor.initialN8n
        N8nProcessor.mainFirstSchedule).plays =
      [N8nProcessor.PlayEvent.starts N8nProcessor.PlaySrc.interim,
       N8nProcessor.PlayEvent.finishes N8nProcessor.PlaySrc.interim,
       N8nProcessor.PlayEvent.starts N8nProcessor.PlaySrc.main,
       N8nProcessor.PlayEvent.finishes N8nProcessor.PlaySrc.main] ∧
    (N8nProcessor.n8nRun N8nProcessor.okN8nConfig N8nProcessor.initialN8n
        N8nProcessor.interimFirstSchedule).plays =
      [N8nProcessor.PlayEvent.starts N8nProcessor.PlaySrc.interim,
       N8nProcessor.PlayEvent.finishes N8nProcessor.PlaySrc.interim,
       N8nProcessor.PlayEvent.starts N8nProcessor.PlaySrc.main,
       N8nProcessor.PlayEvent.finishes N8nProcessor.PlaySrc.main] ∧
    (N8nProcessor.n8nRun N8nProcessor.okN8nConfig N8nProcessor.initialN8n
        N8nProcessor.mainFirstSchedule).mPc = N8nProcessor.MPc.succeeded ∧
    (N8nProcessor.n8nRun N8nProcessor.okN8nConfig N8nProcessor.initialN8n
        N8nProcessor.interimFirstSchedule).mPc =
      N8nProcessor.MPc.succeeded ∧
    (∀ (cfg : N8nProcessor.N8nConfig) (evs : List N8nProcessor.N8nEvent),
      cfg.interimRejects = false →
      (N8nProcessor.n8nRun cfg N8nProcessor.initialN8n evs).mPc =
        N8nProcessor.MPc.succeeded →
      N8nProcessor.PlayEvent.starts N8nProcessor.PlaySrc.main ∈
        (N8nProcessor.n8nRun cfg N8nProcessor.initialN8n evs).plays) := by
  refine ⟨?_, by decide, by decide, by decide, by decide, ?_⟩
  · intro cfg evs
    exact N8nProcessor.playInvariant_pairedMaybeOpen _
      (N8nProcessor.n8nRun_preserves cfg evs N8nProcessor.initialN8n
        N8nProcessor.wellFormed_initial N8nProcessor.playInvariant_initial).2
  · intro cfg evs hrej hsucc
    exact ((N8nProcessor.n8nRun_mainPlayed cfg evs N8nProcessor.initialN8n
      N8nProcessor.wellFormed_initial N8nProcessor.playInvariant_initial
      (N8nProcessor.mainPlayedInvariant_initial cfg)) hrej).1 hsucc
